import Mathlib

/-!
Verification development for the Team Logger backend (a FastAPI + MongoDB
service, files `main.py` and `schemas.py`).

Modelling conventions of the shallow embedding:

* A bson `ObjectId` is modelled as its canonical 24-character hexadecimal
  string; `validOid` is the well-formedness check performed by the bson
  `ObjectId` constructor on string input.
* UTC instants are modelled as natural numbers (seconds since the epoch);
  `timedelta(days=30)` is `thirtyDays = 30 * 86400` seconds.
* A MongoDB collection is an association list `List (String × α)` of
  `(_id, document)` pairs, in insertion order.  `find_one {_id: x}` is
  `findDoc`, `update_one {_id: x} {$set/…}` is `updateDoc` (first match),
  `delete_one {_id: x}` is `deleteFirst`, `insert_one` appends.
  The database sort (`.sort(key, -1)`) is modelled by the structurally
  recursive insertion sort `sortBy` with the corresponding descending
  comparator (a sorted permutation, which is all the claims rely on).
* Python dictionaries (the `roles` map of a user) are association lists;
  `$set {"roles.k": v}` is the upsert `setKey`.
* An HTTP endpoint handler of `main.py` becomes a function from the
  collections it touches (plus the request data, the generated id for
  inserts, and the current time) to the updated collections paired with
  `Except Nat response`, where the `Nat` is the HTTP error status
  (400/404/409 as raised via `HTTPException`).  On an error the returned
  collections equal the input collections, matching the code, which raises
  before performing any write.
* Python truthiness tests on optional query strings (`if record_id:`,
  `if team_id:`, `if type:`) are `optTruthy`: `None` and the empty string
  are falsy.
-/

/-- Well-formedness of an externally supplied object id string: the bson
`ObjectId` constructor accepts exactly 24 hexadecimal characters. -/
def validOid (s : String) : Bool :=
  s.data.length == 24 && s.data.all (fun c => c.isDigit || ('a' ≤ c && c ≤ 'f') || ('A' ≤ c && c ≤ 'F'))

/-- main.py `oid`: parse an id string, raising HTTP 400 ("Invalid id") when
it is not a well-formed object id. -/
def oid (value : String) : Except Nat String :=
  if validOid value then .ok value else .error 400

/-- Python truthiness of an optional query-string parameter: `None` and the
empty string are falsy. -/
def optTruthy : Option String → Bool
  | some s => s ≠ ""
  | none => false

/-- `timedelta(days=30)` in seconds. -/
def thirtyDays : Nat := 30 * 86400

/-- `find_one({"_id": id})` on a collection: the first document stored under
the given id. -/
def findDoc {α : Type} : List (String × α) → String → Option α
  | [], _ => none
  | (k, v) :: rest, id => if k == id then some v else findDoc rest id

/-- `update_one({"_id": id}, …)`: rewrite the first document stored under the
given id with `f`; documents under other ids are untouched. -/
def updateDoc {α : Type} : List (String × α) → String → (α → α) → List (String × α)
  | [], _, _ => []
  | (k, v) :: rest, id, f => if k == id then (k, f v) :: rest else (k, v) :: updateDoc rest id f

/-- `delete_one({"_id": id})`: remove the first document stored under the
given id, returning the remaining collection and the deleted count (0/1). -/
def deleteFirst {α : Type} : List (String × α) → String → List (String × α) × Nat
  | [], _ => ([], 0)
  | (k, v) :: rest, id =>
    if k == id then (rest, 1)
    else
      let r := deleteFirst rest id
      ((k, v) :: r.1, r.2)

/-- `$set {"key": v}` on an embedded document (a Python dict): overwrite the
value at the key, or append the binding when the key is absent. -/
def setKey {α : Type} : List (String × α) → String → α → List (String × α)
  | [], k, v => [(k, v)]
  | (k', v') :: rest, k, v => if k' == k then (k, v) :: rest else (k', v') :: setKey rest k v

/-- `$addToSet`: append the element unless it is already present. -/
def addToSet (l : List String) (x : String) : List String :=
  if x ∈ l then l else l ++ [x]

/-- Ordered insertion used by `sortBy`. -/
def insertBy {α : Type} (le : α → α → Bool) (x : α) : List α → List α
  | [] => [x]
  | y :: ys => if le x y then x :: y :: ys else y :: insertBy le x ys

/-- Insertion sort modelling the database `.sort(...)` (a sorted
permutation of the matched documents). -/
def sortBy {α : Type} (le : α → α → Bool) : List α → List α
  | [] => []
  | x :: xs => insertBy le x (sortBy le xs)

/-! Document shapes, from `schemas.py`. -/

/-- schemas.py `TeamSettings`. -/
structure TeamSettings where
  private_journal_age : Nat := 15
  request_private_from_age : Nat := 12
  locale : String := "en"
  theme_default : String := "family"
  deriving DecidableEq, Repr

/-- schemas.py `Team` as persisted (insert adds `created_at`). -/
structure TeamDoc where
  name : String
  leader_id : String
  member_ids : List String := []
  invites : List String := []
  settings : TeamSettings := {}
  subscription_tier : String := "starter"
  created_at : Nat
  deriving DecidableEq, Repr

/-- schemas.py `UserDevice`. -/
structure UserDevice where
  platform : Option String := none
  push_token : Option String := none
  last_active_at : Option Nat := none
  deriving DecidableEq, Repr

/-- schemas.py `User` as persisted (insert adds `created_at`); `roles` maps
a team id to a role name. -/
structure UserDoc where
  email : String
  name : String
  password_hash : String
  age : Option Nat := none
  roles : List (String × String) := []
  devices : List UserDevice := []
  theme_preference : String := "family"
  created_at : Nat
  deriving DecidableEq, Repr

/-- schemas.py `Record`/`LogEntry`/`JournalEntry` as persisted: the two
subtypes are merged into one shape, with `occurred_at` only ever set on
logs and `title` only on journals at creation time, and the discriminator
in `type`.  `create_record` adds `created_at`/`updated_at`. -/
structure RecordDoc where
  team_id : String
  author_id : String
  type : String
  content : String
  tags : List String := []
  is_private : Bool := false
  edited_at : Option Nat := none
  deleted_at : Option Nat := none
  purge_at : Option Nat := none
  occurred_at : Option Nat := none
  title : Option String := none
  created_at : Nat
  updated_at : Nat
  deriving DecidableEq, Repr

/-! Endpoint handlers, from `main.py`.  Each returns the updated
collections together with `Except Nat response` (the `Nat` is the raised
HTTP status); on an error the collections are returned unchanged. -/

/-- Request body of `POST /api/users` (after framework validation). -/
structure CreateUserRequest where
  email : String
  name : String
  password : String
  age : Option Nat := none
  theme_preference : String := "family"
  deriving DecidableEq, Repr

/-- The `User` document inserted by `create_user` (placeholder password
transform `"hash:" ++ password`, empty roles and devices, creation time). -/
def mkUser (payload : CreateUserRequest) (now : Nat) : UserDoc :=
  { email := payload.email
    name := payload.name
    password_hash := "hash:" ++ payload.password
    age := payload.age
    roles := []
    devices := []
    theme_preference := payload.theme_preference
    created_at := now }

/-- main.py `create_user` (`POST /api/users`): reject with 409 when a stored
user already has the email, otherwise insert a fresh user document under the
generated id and return that id. -/
def create_user (users : List (String × UserDoc)) (payload : CreateUserRequest)
    (newId : String) (now : Nat) : List (String × UserDoc) × Except Nat String :=
  if (users.find? (fun q => q.2.email == payload.email)).isSome then
    (users, .error 409)
  else
    (users ++ [(newId, mkUser payload now)], .ok newId)

/-- main.py `register_device` (`POST /api/devices/register`): validate the
user id, 404 when the user is absent, else append a device entry stamped
with the current time. -/
def register_device (users : List (String × UserDoc)) (user_id : String)
    (platform push_token : Option String) (now : Nat) :
    List (String × UserDoc) × Except Nat Unit :=
  match oid user_id with
  | .error e => (users, .error e)
  | .ok uid =>
    if (findDoc users uid).isSome then
      (updateDoc users uid (fun u =>
        { u with devices := u.devices ++ [{ platform := platform, push_token := push_token,
                                            last_active_at := some now }] }), .ok ())
    else (users, .error 404)

/-- main.py `create_team` (`POST /api/teams`): validate the leader id, 404
when the leader is absent, else insert a team (leader, empty members and
invites, default settings, starter tier) and set the leader's role for the
new team id to "leader". -/
def create_team (teams : List (String × TeamDoc)) (users : List (String × UserDoc))
    (name leader_user_id : String) (newId : String) (now : Nat) :
    List (String × TeamDoc) × List (String × UserDoc) × Except Nat String :=
  match oid leader_user_id with
  | .error e => (teams, users, .error e)
  | .ok lid =>
    if (findDoc users lid).isSome then
      let team : TeamDoc :=
        { name := name, leader_id := leader_user_id, member_ids := [], invites := [],
          settings := {}, subscription_tier := "starter", created_at := now }
      (teams ++ [(newId, team)],
       updateDoc users lid (fun u => { u with roles := setKey u.roles newId "leader" }),
       .ok newId)
    else (teams, users, .error 404)

/-- main.py `invite` (`POST /api/teams/{team_id}/invite`): validate the team
id, 404 when the team is absent, else `$addToSet` the email to the team's
invites. -/
def invite (teams : List (String × TeamDoc)) (team_id : String) (email : String) :
    List (String × TeamDoc) × Except Nat Unit :=
  match oid team_id with
  | .error e => (teams, .error e)
  | .ok tid =>
    if (findDoc teams tid).isSome then
      (updateDoc teams tid (fun t => { t with invites := addToSet t.invites email }), .ok ())
    else (teams, .error 404)

/-- main.py `join_team` (`POST /api/teams/{team_id}/join`): validate both
ids and check both entities exist (404 otherwise), then `$addToSet` the user
id to the team's members and `$set` the user's role for the (raw) team id
string to "adult". -/
def join_team (teams : List (String × TeamDoc)) (users : List (String × UserDoc))
    (team_id user_id : String) :
    List (String × TeamDoc) × List (String × UserDoc) × Except Nat Unit :=
  match oid team_id with
  | .error e => (teams, users, .error e)
  | .ok tid =>
    if (findDoc teams tid).isSome then
      match oid user_id with
      | .error e => (teams, users, .error e)
      | .ok uid =>
        if (findDoc users uid).isSome then
          (updateDoc teams tid (fun t => { t with member_ids := addToSet t.member_ids user_id }),
           updateDoc users uid (fun u => { u with roles := setKey u.roles team_id "adult" }),
           .ok ())
        else (teams, users, .error 404)
    else (teams, users, .error 404)

/-- main.py `get_team` (`GET /api/teams/{team_id}`): validate the id, return
the team document or 404. -/
def get_team (teams : List (String × TeamDoc)) (team_id : String) : Except Nat TeamDoc :=
  match oid team_id with
  | .error e => .error e
  | .ok tid =>
    match findDoc teams tid with
    | some t => .ok t
    | none => .error 404

/-- Request body of `POST /api/records` (after framework validation; `type`
is "log" or "journal"). -/
structure CreateRecordRequest where
  team_id : String
  author_id : String
  type : String
  content : String
  is_private : Bool := false
  tags : List String := []
  occurred_at : Option Nat := none
  title : Option String := none
  deriving DecidableEq, Repr

/-- The record document built by `create_record`: a `LogEntry` when the
discriminator is "log" (carrying `occurred_at`), else a `JournalEntry`
(carrying `title`), stamped `created_at = updated_at = now`.  Note that the
`team_id`/`author_id` strings are stored exactly as supplied, with no
validation or existence check. -/
def mkRecord (payload : CreateRecordRequest) (now : Nat) : RecordDoc :=
  if payload.type == "log" then
    { team_id := payload.team_id, author_id := payload.author_id, type := "log",
      content := payload.content, tags := payload.tags, is_private := payload.is_private,
      occurred_at := payload.occurred_at, title := none,
      edited_at := none, deleted_at := none, purge_at := none,
      created_at := now, updated_at := now }
  else
    { team_id := payload.team_id, author_id := payload.author_id, type := "journal",
      content := payload.content, tags := payload.tags, is_private := payload.is_private,
      occurred_at := none, title := payload.title,
      edited_at := none, deleted_at := none, purge_at := none,
      created_at := now, updated_at := now }

/-- main.py `create_record` (`POST /api/records`): always succeeds, inserts
the document and returns the generated id. -/
def create_record (recs : List (String × RecordDoc)) (payload : CreateRecordRequest)
    (newId : String) (now : Nat) : List (String × RecordDoc) × String :=
  (recs ++ [(newId, mkRecord payload now)], newId)

/-- The Mongo query built by `list_records`: team match, optional type
match (only when the `type` parameter is truthy), and absence of
`deleted_at` unless `include_deleted`. -/
def recordQuery (team_id : String) (type? : Option String) (include_deleted : Bool)
    (r : RecordDoc) : Bool :=
  r.team_id == team_id
  && (if optTruthy type? then r.type == type?.getD "" else true)
  && (include_deleted || r.deleted_at.isNone)

/-- The post-retrieval privacy test of `list_records`: a record is skipped
when it is private AND a requester id is supplied (truthy) AND that
requester differs from the author.  With no requester id nothing is
skipped. -/
def skipPrivate (requester_id : Option String) (r : RecordDoc) : Bool :=
  r.is_private
  && (match requester_id with
      | some q => !(q == "") && !(q == r.author_id)
      | none => false)

/-- main.py `list_records` (`GET /api/records`): query by team/type/not-
deleted, sort by `created_at` descending, then drop records failing the
privacy test. -/
def list_records (recs : List (String × RecordDoc)) (team_id : String)
    (requester_id : Option String) (type? : Option String) (include_deleted : Bool) :
    List (String × RecordDoc) :=
  let items := sortBy (fun a b => Nat.ble b.2.created_at a.2.created_at)
    (recs.filter (fun p => recordQuery team_id type? include_deleted p.2))
  items.filter (fun p => ! skipPrivate requester_id p.2)

/-- Request body of `PUT /api/records/{record_id}`: every field optional. -/
structure UpdateRecordRequest where
  content : Option String := none
  is_private : Option Bool := none
  tags : Option (List String) := none
  occurred_at : Option Nat := none
  title : Option String := none
  deriving DecidableEq, Repr

/-- The `$set` document of `update_record`: exactly the supplied
(non-`None`) fields, plus `updated_at = now` always. -/
def applyUpdate (p : UpdateRecordRequest) (now : Nat) (r : RecordDoc) : RecordDoc :=
  { r with
    content := p.content.getD r.content
    is_private := p.is_private.getD r.is_private
    tags := p.tags.getD r.tags
    occurred_at := match p.occurred_at with | some t => some t | none => r.occurred_at
    title := match p.title with | some t => some t | none => r.title
    updated_at := now }

/-- main.py `update_record` (`PUT /api/records/{record_id}`): validate the
id, `$set` the supplied fields plus `updated_at`, 404 when no record
matches. -/
def update_record (recs : List (String × RecordDoc)) (record_id : String)
    (payload : UpdateRecordRequest) (now : Nat) :
    List (String × RecordDoc) × Except Nat Unit :=
  match oid record_id with
  | .error e => (recs, .error e)
  | .ok rid =>
    if (findDoc recs rid).isSome then
      (updateDoc recs rid (applyUpdate payload now), .ok ())
    else (recs, .error 404)

/-- The `$set` document of `soft_delete_record`: `deleted_at = now`,
`purge_at = now + 30 days`. -/
def markDeleted (now : Nat) (r : RecordDoc) : RecordDoc :=
  { r with deleted_at := some now, purge_at := some (now + thirtyDays) }

/-- main.py `soft_delete_record` (`DELETE /api/records/{record_id}`):
validate the id, stamp `deleted_at`/`purge_at`, 404 when no record matches;
returns the computed purge instant. -/
def soft_delete_record (recs : List (String × RecordDoc)) (record_id : String)
    (now : Nat) : List (String × RecordDoc) × Except Nat Nat :=
  match oid record_id with
  | .error e => (recs, .error e)
  | .ok rid =>
    if (findDoc recs rid).isSome then
      (updateDoc recs rid (markDeleted now), .ok (now + thirtyDays))
    else (recs, .error 404)

/-- main.py `list_trash` (`GET /api/trash`): every record of the team
carrying a `deleted_at` field, sorted by `deleted_at` descending.  No
requester parameter exists and no privacy filtering is applied. -/
def list_trash (recs : List (String × RecordDoc)) (team_id : String) :
    List (String × RecordDoc) :=
  sortBy (fun a b => Nat.ble (b.2.deleted_at.getD 0) (a.2.deleted_at.getD 0))
    (recs.filter (fun p => p.2.team_id == team_id && p.2.deleted_at.isSome))

/-- The `$unset` document of `restore_record`: remove `deleted_at` and
`purge_at`. -/
def clearDeleted (r : RecordDoc) : RecordDoc :=
  { r with deleted_at := none, purge_at := none }

/-- main.py `restore_record` (`POST /api/trash/{record_id}/restore`):
validate the id, `$unset` both trash fields, 404 when no record matches. -/
def restore_record (recs : List (String × RecordDoc)) (record_id : String) :
    List (String × RecordDoc) × Except Nat Unit :=
  match oid record_id with
  | .error e => (recs, .error e)
  | .ok rid =>
    if (findDoc recs rid).isSome then
      (updateDoc recs rid clearDeleted, .ok ())
    else (recs, .error 404)

/-- The bulk-purge query of `purge_expired`: `purge_at` present and at or
before `now` (a document without `purge_at` never matches `$lte`), narrowed
to the team only when the `team_id` parameter is truthy. -/
def purgeEligible (team_id : Option String) (now : Nat) (r : RecordDoc) : Bool :=
  (match r.purge_at with | some t => Nat.ble t now | none => false)
  && (if optTruthy team_id then r.team_id == team_id.getD "" else true)

/-- main.py `purge_expired` (`DELETE /api/trash/purge`): with a truthy
`record_id`, unconditionally `delete_one` that record (after id validation)
and return the deleted count; otherwise `delete_many` every record whose
`purge_at` has elapsed, optionally scoped to the team, returning the
count. -/
def purge_expired (recs : List (String × RecordDoc)) (team_id record_id : Option String)
    (now : Nat) : List (String × RecordDoc) × Except Nat Nat :=
  if optTruthy record_id then
    match oid (record_id.getD "") with
    | .error e => (recs, .error e)
    | .ok rid =>
      let r := deleteFirst recs rid
      (r.1, .ok r.2)
  else
    ((recs.filter (fun p => ! purgeEligible team_id now p.2)),
     .ok (recs.filter (fun p => purgeEligible team_id now p.2)).length)

/-! Generic lemmas about the collection operations. -/

theorem findDoc_eq_some_mem {α : Type} {l : List (String × α)} {id : String} {v : α}
    (h : findDoc l id = some v) : (id, v) ∈ l := by
  induction l with
  | nil => simp [findDoc] at h
  | cons p rest ih =>
    obtain ⟨k, w⟩ := p
    simp only [findDoc] at h
    split at h
    · next hk =>
      obtain rfl : w = v := by simpa using h
      obtain rfl : k = id := by simpa using hk
      exact List.mem_cons_self _ _
    · exact List.mem_cons_of_mem _ (ih h)

theorem findDoc_updateDoc {α : Type} (l : List (String × α)) (id : String) (f : α → α) :
    findDoc (updateDoc l id f) id = (findDoc l id).map f := by
  induction l with
  | nil => simp [findDoc, updateDoc]
  | cons p rest ih =>
    obtain ⟨k, w⟩ := p
    by_cases hk : k = id
    · subst hk
      simp [findDoc, updateDoc]
    · simp [findDoc, updateDoc, hk, ih]

theorem mem_updateDoc_of_ne {α : Type} {l : List (String × α)} {p : String × α}
    {id : String} (f : α → α) (hp : p ∈ l) (hne : p.1 ≠ id) : p ∈ updateDoc l id f := by
  induction l with
  | nil => simp at hp
  | cons q rest ih =>
    obtain ⟨k, w⟩ := q
    by_cases hk : k = id
    · subst hk
      have hd : updateDoc ((k, w) :: rest) k f = (k, f w) :: rest := by simp [updateDoc]
      rw [hd]
      rcases List.mem_cons.mp hp with h | h
      · exact absurd (by simp [h]) hne
      · exact List.mem_cons_of_mem _ h
    · have hd : updateDoc ((k, w) :: rest) id f = (k, w) :: updateDoc rest id f := by
        simp [updateDoc, hk]
      rw [hd]
      rcases List.mem_cons.mp hp with h | h
      · exact h ▸ List.mem_cons_self _ _
      · exact List.mem_cons_of_mem _ (ih h)

theorem findDoc_eq_none_of_not_mem_keys {α : Type} {l : List (String × α)} {id : String}
    (h : id ∉ l.map Prod.fst) : findDoc l id = none := by
  induction l with
  | nil => rfl
  | cons p rest ih =>
    obtain ⟨k, w⟩ := p
    simp only [List.map_cons, List.mem_cons, not_or] at h
    have hk : ¬((k == id) = true) := fun hb => h.1 (eq_of_beq hb).symm
    simp only [findDoc]
    rw [if_neg hk]
    exact ih h.2

theorem deleteFirst_of_findDoc_none {α : Type} {l : List (String × α)} {id : String}
    (h : findDoc l id = none) : deleteFirst l id = (l, 0) := by
  induction l with
  | nil => rfl
  | cons p rest ih =>
    obtain ⟨k, w⟩ := p
    by_cases hk : k = id
    · subst hk
      simp [findDoc] at h
    · have h' : findDoc rest id = none := by simpa [findDoc, hk] using h
      simp [deleteFirst, hk, ih h']

theorem deleteFirst_of_findDoc_some {α : Type} {l : List (String × α)} {id : String} {v : α}
    (hnd : (l.map Prod.fst).Nodup) (h : findDoc l id = some v) :
    (deleteFirst l id).2 = 1 ∧ findDoc (deleteFirst l id).1 id = none := by
  induction l with
  | nil => simp [findDoc] at h
  | cons p rest ih =>
    obtain ⟨k, w⟩ := p
    simp only [List.map_cons, List.nodup_cons] at hnd
    by_cases hk : k = id
    · subst hk
      have hd : deleteFirst ((k, w) :: rest) k = (rest, 1) := by simp [deleteFirst]
      rw [hd]
      exact ⟨rfl, findDoc_eq_none_of_not_mem_keys hnd.1⟩
    · have hd : deleteFirst ((k, w) :: rest) id
          = ((k, w) :: (deleteFirst rest id).1, (deleteFirst rest id).2) := by
        simp [deleteFirst, hk]
      have h' : findDoc rest id = some v := by simpa [findDoc, hk] using h
      have hrest := ih hnd.2 h'
      rw [hd]
      exact ⟨hrest.1, by simpa [findDoc, hk] using hrest.2⟩

theorem mem_deleteFirst_of_ne {α : Type} {l : List (String × α)} {p : String × α}
    {id : String} (hp : p ∈ l) (hne : p.1 ≠ id) : p ∈ (deleteFirst l id).1 := by
  induction l with
  | nil => simp at hp
  | cons q rest ih =>
    obtain ⟨k, w⟩ := q
    by_cases hk : k = id
    · subst hk
      have hd : deleteFirst ((k, w) :: rest) k = (rest, 1) := by simp [deleteFirst]
      rw [hd]
      rcases List.mem_cons.mp hp with h | h
      · exact absurd (by simp [h]) hne
      · exact h
    · have hd : deleteFirst ((k, w) :: rest) id
          = ((k, w) :: (deleteFirst rest id).1, (deleteFirst rest id).2) := by
        simp [deleteFirst, hk]
      rw [hd]
      rcases List.mem_cons.mp hp with h | h
      · exact h ▸ List.mem_cons_self _ _
      · exact List.mem_cons_of_mem _ (ih h)

theorem mem_insertBy {α : Type} {le : α → α → Bool} {x a : α} {l : List α} :
    a ∈ insertBy le x l ↔ a = x ∨ a ∈ l := by
  induction l with
  | nil => simp [insertBy]
  | cons y ys ih =>
    simp only [insertBy]
    split
    · simp only [List.mem_cons]
    · simp only [List.mem_cons, ih]
      tauto

theorem mem_sortBy {α : Type} {le : α → α → Bool} {a : α} {l : List α} :
    a ∈ sortBy le l ↔ a ∈ l := by
  induction l with
  | nil => simp [sortBy]
  | cons x xs ih => simp [sortBy, mem_insertBy, ih]

theorem count_addToSet {l : List String} {x : String} (h : l.count x ≤ 1) :
    (addToSet l x).count x = 1 := by
  by_cases hx : x ∈ l
  · have hpos : 0 < l.count x := List.count_pos_iff.mpr hx
    simp only [addToSet, if_pos hx]
    omega
  · have hzero : l.count x = 0 := List.count_eq_zero.mpr hx
    simp [addToSet, hx, List.count_append, hzero]

theorem findDoc_setKey_self {α : Type} (l : List (String × α)) (k : String) (v : α) :
    findDoc (setKey l k v) k = some v := by
  induction l with
  | nil => simp [setKey, findDoc]
  | cons p rest ih =>
    obtain ⟨k', w⟩ := p
    by_cases hk : k' = k
    · subst hk
      simp [setKey, findDoc]
    · simp [setKey, findDoc, hk, ih]

theorem mem_list_records_iff {recs : List (String × RecordDoc)} {team_id : String}
    {requester_id type? : Option String} {include_deleted : Bool} {p : String × RecordDoc} :
    p ∈ list_records recs team_id requester_id type? include_deleted ↔
      p ∈ recs ∧ recordQuery team_id type? include_deleted p.2 = true ∧
        skipPrivate requester_id p.2 = false := by
  simp only [list_records, List.mem_filter, mem_sortBy, Bool.not_eq_true']
  tauto

deriving instance DecidableEq for Except

/-! Claim theorems. -/

/-- Concrete private record used to exhibit the privacy-filter behaviour of
`list_records` on an anonymous (no requester id) request. -/
def anonPrivRec : RecordDoc :=
  { team_id := "74656d3174656d3174656d31", author_id := "617574686f7231617574686f",
    type := "journal", content := "secret", is_private := true, title := some "t",
    created_at := 10, updated_at := 10 }

/-- C1: the claim states that a private record appears in a listing only if
the requester id is supplied and equals the author id, and in particular
that a listing with no requester id excludes every private record.  The
code does the opposite: the filter skips a private record only when a
requester id IS supplied (and differs from the author), so an anonymous
listing returns every private record.  This evaluates `list_records` at
such a failing input: a team with one private record, requester id absent —
the private record is returned. -/
theorem list_records_no_requester_returns_private :
    anonPrivRec.is_private = true ∧
    ("726563317265633172656331", anonPrivRec) ∈
      list_records [("726563317265633172656331", anonPrivRec)]
        "74656d3174656d3174656d31" none none false := by
  decide

/-- C2 counterexample: `create_record` performs no id validation at all on
its externally supplied `team_id`/`author_id`: with a malformed team id the
request succeeds (no 400) and the malformed string is stored verbatim in
the inserted document, i.e. it reaches the storage layer. -/
theorem create_record_stores_malformed_id :
    validOid "not-a-valid-id" = false ∧
    ((create_record []
        { team_id := "not-a-valid-id", author_id := "also bad", type := "log",
          content := "hello" }
        "636363636363636363636363" 5).1.map (fun p => p.2.team_id))
      = ["not-a-valid-id"] := by
  decide

/-- C2 (amended): the endpoints that look an entity up by an externally
supplied id — device registration, team create/invite/join/get, record
update/soft-delete/restore, and purge with a (non-empty) record id — do
validate the id via `oid` and fail with 400 on a malformed id, with every
collection left unchanged (no database access).  Record creation and the
listing filters accept id-typed strings without validation (see the
counterexample), and an empty-string `record_id` on purge is treated as
absent rather than rejected. -/
theorem lookup_endpoints_reject_malformed_id (s : String) (hs : validOid s = false)
    (teams : List (String × TeamDoc)) (users : List (String × UserDoc))
    (recs : List (String × RecordDoc)) (platform push_token : Option String)
    (name email user_id newId : String) (payload : UpdateRecordRequest)
    (team_id? : Option String) (now : Nat) :
    get_team teams s = .error 400 ∧
    register_device users s platform push_token now = (users, .error 400) ∧
    create_team teams users name s newId now = (teams, users, .error 400) ∧
    invite teams s email = (teams, .error 400) ∧
    join_team teams users s user_id = (teams, users, .error 400) ∧
    update_record recs s payload now = (recs, .error 400) ∧
    soft_delete_record recs s now = (recs, .error 400) ∧
    restore_record recs s = (recs, .error 400) ∧
    (s ≠ "" → purge_expired recs team_id? (some s) now = (recs, .error 400)) := by
  have ho : oid s = .error 400 := by simp [oid, hs]
  refine ⟨?_, ?_, ?_, ?_, ?_, ?_, ?_, ?_, ?_⟩
  · simp [get_team, ho]
  · simp [register_device, ho]
  · simp [create_team, ho]
  · simp [invite, ho]
  · simp [join_team, ho]
  · simp [update_record, ho]
  · simp [soft_delete_record, ho]
  · simp [restore_record, ho]
  · intro hne
    simp [purge_expired, optTruthy, hne, ho]

/-- Witness for the amended C2 theorem at a concrete malformed id and
concrete collections. -/
theorem lookup_endpoints_reject_malformed_id_witness :
    get_team [] "zz" = .error 400 ∧
    register_device [] "zz" none none 7 = ([], .error 400) ∧
    create_team [] [] "fam" "zz" "646464646464646464646464" 7 = ([], [], .error 400) ∧
    invite [] "zz" "a@x.com" = ([], .error 400) ∧
    join_team [] [] "zz" "646464646464646464646464" = ([], [], .error 400) ∧
    update_record [] "zz" {} 7 = ([], .error 400) ∧
    soft_delete_record [] "zz" 7 = ([], .error 400) ∧
    restore_record [] "zz" = ([], .error 400) ∧
    ("zz" ≠ "" → purge_expired [] none (some "zz") 7 = ([], .error 400)) :=
  lookup_endpoints_reject_malformed_id "zz" (by decide) [] [] [] none none
    "fam" "a@x.com" "646464646464646464646464" "646464646464646464646464" {} none 7

/-- C5: creating a user whose email is already stored fails with 409 and
leaves the user collection unchanged (no document inserted); with an email
not yet registered, a user document is inserted under the generated id and
that id is returned. -/
theorem create_user_email_uniqueness (users : List (String × UserDoc))
    (payload : CreateUserRequest) (newId : String) (now : Nat) :
    ((∃ q ∈ users, q.2.email = payload.email) →
      create_user users payload newId now = (users, .error 409)) ∧
    ((∀ q ∈ users, q.2.email ≠ payload.email) →
      create_user users payload newId now
        = (users ++ [(newId, mkUser payload now)], .ok newId)) := by
  constructor
  · rintro ⟨q, hq, he⟩
    have hfind : (users.find? (fun q => q.2.email == payload.email)).isSome := by
      rw [List.find?_isSome]
      exact ⟨q, hq, by simpa using he⟩
    simp [create_user, hfind]
  · intro hall
    have hfind : users.find? (fun q => q.2.email == payload.email) = none := by
      rw [List.find?_eq_none]
      intro q hq
      simpa using hall q hq
    simp [create_user, hfind]

/-- Concrete one-user collection for the C5 witness. -/
def oneUserColl : List (String × UserDoc) :=
  [("616161616161616161616161",
    { email := "a@x.com", name := "A", password_hash := "hash:secret1", created_at := 1 })]

/-- Witness for C5: a duplicate email is rejected with 409 and the
collection is unchanged. -/
theorem create_user_email_uniqueness_witness :
    create_user oneUserColl { email := "a@x.com", name := "B", password := "secret2" }
      "626262626262626262626262" 2 = (oneUserColl, .error 409) :=
  (create_user_email_uniqueness oneUserColl
    { email := "a@x.com", name := "B", password := "secret2" }
    "626262626262626262626262" 2).1
    ⟨("616161616161616161616161",
      { email := "a@x.com", name := "A", password_hash := "hash:secret1", created_at := 1 }),
     by decide, rfl⟩

/-- C9: `list_trash` returns exactly the records of the team that carry a
`deleted_at` field — the characterisation has no privacy condition and the
endpoint takes no requester parameter, so private trashed records of any
author are returned to any caller. -/
theorem list_trash_returns_every_deleted_record (recs : List (String × RecordDoc))
    (team_id : String) (p : String × RecordDoc) :
    p ∈ list_trash recs team_id ↔
      p ∈ recs ∧ p.2.team_id = team_id ∧ p.2.deleted_at.isSome = true := by
  simp only [list_trash, mem_sortBy, List.mem_filter, Bool.and_eq_true, beq_iff_eq]

/-- Unfolding lemma: `soft_delete_record` on an existing record with a
valid id stamps the trash fields and returns the purge instant. -/
theorem soft_delete_record_eq {recs : List (String × RecordDoc)} {rid : String}
    {r : RecordDoc} (now : Nat) (hv : validOid rid = true)
    (hf : findDoc recs rid = some r) :
    soft_delete_record recs rid now
      = (updateDoc recs rid (markDeleted now), .ok (now + thirtyDays)) := by
  simp [soft_delete_record, oid, hv, hf]

/-- Unfolding lemma: `restore_record` on an existing record with a valid id
unsets the trash fields. -/
theorem restore_record_eq {recs : List (String × RecordDoc)} {rid : String}
    {r : RecordDoc} (hv : validOid rid = true) (hf : findDoc recs rid = some r) :
    restore_record recs rid = (updateDoc recs rid clearDeleted, .ok ()) := by
  simp [restore_record, oid, hv, hf]

/-- Unfolding lemma: `update_record` on an existing record with a valid id
applies the supplied fields. -/
theorem update_record_eq {recs : List (String × RecordDoc)} {rid : String}
    {r : RecordDoc} (payload : UpdateRecordRequest) (now : Nat)
    (hv : validOid rid = true) (hf : findDoc recs rid = some r) :
    update_record recs rid payload now
      = (updateDoc recs rid (applyUpdate payload now), .ok ()) := by
  simp [update_record, oid, hv, hf]

/-- Unfolding lemma: `invite` on an existing team with a valid id adds the
email to the invite set. -/
theorem invite_eq {teams : List (String × TeamDoc)} {tid : String} {t : TeamDoc}
    (email : String) (hv : validOid tid = true) (hf : findDoc teams tid = some t) :
    invite teams tid email
      = (updateDoc teams tid (fun t => { t with invites := addToSet t.invites email }),
         .ok ()) := by
  simp [invite, oid, hv, hf]

/-- Unfolding lemma: `join_team` on an existing team and user with valid ids
adds the member and overwrites the role. -/
theorem join_team_eq {teams : List (String × TeamDoc)} {users : List (String × UserDoc)}
    {tid uid : String} {t : TeamDoc} {u : UserDoc}
    (hvt : validOid tid = true) (hvu : validOid uid = true)
    (ht : findDoc teams tid = some t) (hu : findDoc users uid = some u) :
    join_team teams users tid uid
      = (updateDoc teams tid (fun t => { t with member_ids := addToSet t.member_ids uid }),
         updateDoc users uid (fun u => { u with roles := setKey u.roles tid "adult" }),
         .ok ()) := by
  simp [join_team, oid, hvt, hvu, ht, hu]


/-- C3: for an existing, not-yet-deleted record, soft-deleting sets
`deleted_at` to the deletion time and `purge_at` to exactly 30 days later
(the purge instant is also returned); restoring removes both fields so the
document equals the original again, reappears in the normal listing and no
longer appears in the trash listing; soft-deleting once more recomputes
fresh `deleted_at`/`purge_at` from the second deletion time. -/
theorem soft_delete_restore_round_trip (recs : List (String × RecordDoc))
    (rid : String) (r : RecordDoc) (now1 now2 : Nat)
    (hv : validOid rid = true) (hf : findDoc recs rid = some r)
    (hd0 : r.deleted_at = none) (hp0 : r.purge_at = none) :
    (soft_delete_record recs rid now1).2 = .ok (now1 + thirtyDays) ∧
    (findDoc (soft_delete_record recs rid now1).1 rid).map RecordDoc.deleted_at
      = some (some now1) ∧
    (findDoc (soft_delete_record recs rid now1).1 rid).map RecordDoc.purge_at
      = some (some (now1 + thirtyDays)) ∧
    (restore_record (soft_delete_record recs rid now1).1 rid).2 = .ok () ∧
    findDoc (restore_record (soft_delete_record recs rid now1).1 rid).1 rid = some r ∧
    (rid, r) ∈ list_records (restore_record (soft_delete_record recs rid now1).1 rid).1
      r.team_id (some r.author_id) none false ∧
    (rid, r) ∉ list_trash (restore_record (soft_delete_record recs rid now1).1 rid).1
      r.team_id ∧
    (soft_delete_record (restore_record (soft_delete_record recs rid now1).1 rid).1
      rid now2).2 = .ok (now2 + thirtyDays) ∧
    (findDoc (soft_delete_record (restore_record
        (soft_delete_record recs rid now1).1 rid).1 rid now2).1 rid).map
      RecordDoc.deleted_at = some (some now2) ∧
    (findDoc (soft_delete_record (restore_record
        (soft_delete_record recs rid now1).1 rid).1 rid now2).1 rid).map
      RecordDoc.purge_at = some (some (now2 + thirtyDays)) := by
  have h1 := soft_delete_record_eq now1 hv hf
  have hr1 : findDoc (soft_delete_record recs rid now1).1 rid
      = some (markDeleted now1 r) := by
    rw [h1]
    simp [findDoc_updateDoc, hf]
  have h2 := restore_record_eq hv hr1
  have hback : clearDeleted (markDeleted now1 r) = r := by
    cases r
    simp_all [clearDeleted, markDeleted]
  have hr2 : findDoc (restore_record (soft_delete_record recs rid now1).1 rid).1 rid
      = some r := by
    rw [h2]
    simp [findDoc_updateDoc, hr1, hback]
  have h3 := soft_delete_record_eq now2 hv hr2
  have hr3 : findDoc (soft_delete_record (restore_record
        (soft_delete_record recs rid now1).1 rid).1 rid now2).1 rid
      = some (markDeleted now2 r) := by
    rw [h3]
    simp [findDoc_updateDoc, hr2]
  refine ⟨by rw [h1], ?_, ?_, by rw [h2], hr2, ?_, ?_, by rw [h3], ?_, ?_⟩
  · rw [hr1]
    simp [markDeleted]
  · rw [hr1]
    simp [markDeleted]
  · refine mem_list_records_iff.mpr ⟨findDoc_eq_some_mem hr2, ?_, ?_⟩
    · simp [recordQuery, optTruthy, hd0, Option.isNone_iff_eq_none]
    · simp [skipPrivate]
  · intro hmem
    simp only [list_trash, mem_sortBy, List.mem_filter, Bool.and_eq_true] at hmem
    rw [hd0] at hmem
    simpa using hmem.2.2
  · rw [hr3]
    simp [markDeleted]
  · rw [hr3]
    simp [markDeleted]

/-- Concrete record and collection for the C3 witness. -/
def tripRec : RecordDoc :=
  { team_id := "74656d3174656d3174656d31", author_id := "617574686f7231617574686f",
    type := "log", content := "walk", created_at := 50, updated_at := 50 }

/-- Concrete collection for the C3 witness. -/
def tripRecs : List (String × RecordDoc) := [("726563327265633272656332", tripRec)]

/-- Witness for C3 at a concrete record: delete at 100 then restore yields
the original document back, and re-deleting at 9000 stamps a fresh
`purge_at = 9000 + 30 days`. -/
theorem soft_delete_restore_round_trip_witness :
    findDoc (restore_record (soft_delete_record tripRecs "726563327265633272656332" 100).1
        "726563327265633272656332").1 "726563327265633272656332" = some tripRec ∧
    (findDoc (soft_delete_record (restore_record
        (soft_delete_record tripRecs "726563327265633272656332" 100).1
        "726563327265633272656332").1 "726563327265633272656332" 9000).1
        "726563327265633272656332").map RecordDoc.purge_at
      = some (some (9000 + thirtyDays)) := by
  have h := soft_delete_restore_round_trip tripRecs "726563327265633272656332" tripRec
    100 9000 (by decide) (by decide) rfl rfl
  obtain ⟨h1, h2, h3, h4, h5, h6, h7, h8, h9, h10⟩ := h
  exact ⟨h5, h10⟩

/-- C4: a partial update of an existing record applies exactly the supplied
subset of {content, is_private, tags, occurred_at, title} (a field left
unsupplied keeps its prior value), never touches the identity/lifecycle
fields, and always stamps `updated_at` with the call time, whatever subset
(possibly empty) was supplied. -/
theorem update_record_partial_update (recs : List (String × RecordDoc))
    (rid : String) (payload : UpdateRecordRequest) (now : Nat) (r : RecordDoc)
    (hv : validOid rid = true) (hf : findDoc recs rid = some r) :
    (update_record recs rid payload now).2 = .ok () ∧
    (findDoc (update_record recs rid payload now).1 rid).map RecordDoc.updated_at
      = some now ∧
    (findDoc (update_record recs rid payload now).1 rid).map RecordDoc.content
      = some (payload.content.getD r.content) ∧
    (findDoc (update_record recs rid payload now).1 rid).map RecordDoc.is_private
      = some (payload.is_private.getD r.is_private) ∧
    (findDoc (update_record recs rid payload now).1 rid).map RecordDoc.tags
      = some (payload.tags.getD r.tags) ∧
    (findDoc (update_record recs rid payload now).1 rid).map RecordDoc.occurred_at
      = some (match payload.occurred_at with | some t => some t | none => r.occurred_at) ∧
    (findDoc (update_record recs rid payload now).1 rid).map RecordDoc.title
      = some (match payload.title with | some t => some t | none => r.title) ∧
    (findDoc (update_record recs rid payload now).1 rid).map RecordDoc.team_id
      = some r.team_id ∧
    (findDoc (update_record recs rid payload now).1 rid).map RecordDoc.author_id
      = some r.author_id ∧
    (findDoc (update_record recs rid payload now).1 rid).map RecordDoc.type
      = some r.type ∧
    (findDoc (update_record recs rid payload now).1 rid).map RecordDoc.created_at
      = some r.created_at ∧
    (findDoc (update_record recs rid payload now).1 rid).map RecordDoc.edited_at
      = some r.edited_at ∧
    (findDoc (update_record recs rid payload now).1 rid).map RecordDoc.deleted_at
      = some r.deleted_at ∧
    (findDoc (update_record recs rid payload now).1 rid).map RecordDoc.purge_at
      = some r.purge_at := by
  have h := update_record_eq payload now hv hf
  have hr : findDoc (update_record recs rid payload now).1 rid
      = some (applyUpdate payload now r) := by
    rw [h]
    simp [findDoc_updateDoc, hf]
  rw [hr, h]
  simp [applyUpdate]

/-- Concrete record for the C4 witness. -/
def updRec : RecordDoc :=
  { team_id := "74656d3174656d3174656d31", author_id := "617574686f7231617574686f",
    type := "journal", content := "old text", tags := ["garden"], is_private := true,
    title := some "day one", created_at := 40, updated_at := 40 }

/-- Concrete collection for the C4 witness. -/
def updRecs : List (String × RecordDoc) := [("726563337265633372656333", updRec)]

/-- Witness for C4: updating only `content` at time 77 refreshes
`updated_at`, replaces the content, and leaves tags, privacy and title
untouched. -/
theorem update_record_partial_update_witness :
    (findDoc (update_record updRecs "726563337265633372656333"
        { content := some "new text" } 77).1 "726563337265633372656333").map
      RecordDoc.updated_at = some 77 ∧
    (findDoc (update_record updRecs "726563337265633372656333"
        { content := some "new text" } 77).1 "726563337265633372656333").map
      RecordDoc.content = some "new text" ∧
    (findDoc (update_record updRecs "726563337265633372656333"
        { content := some "new text" } 77).1 "726563337265633372656333").map
      RecordDoc.tags = some ["garden"] ∧
    (findDoc (update_record updRecs "726563337265633372656333"
        { content := some "new text" } 77).1 "726563337265633372656333").map
      RecordDoc.is_private = some true ∧
    (findDoc (update_record updRecs "726563337265633372656333"
        { content := some "new text" } 77).1 "726563337265633372656333").map
      RecordDoc.title = some (some "day one") := by
  have h := update_record_partial_update updRecs "726563337265633372656333"
    { content := some "new text" } 77 updRec (by decide) (by decide)
  obtain ⟨h1, h2, h3, h4, h5, h6, h7, h8, h9, h10, h11, h12, h13, h14⟩ := h
  exact ⟨h2, h3, h5, h4, h7⟩

/-- C6: a purge invocation without a record id hard-deletes exactly the
records whose `purge_at` is at or before the current time (restricted to
the team when a team filter is supplied) and returns their count; a record
whose `purge_at` lies in the future, or which carries no `purge_at` at all,
is untouched. -/
theorem purge_expired_bulk_spec (recs : List (String × RecordDoc))
    (team_id? : Option String) (now : Nat) :
    (purge_expired recs team_id? none now).2
      = .ok ((recs.filter (fun p => purgeEligible team_id? now p.2)).length) ∧
    (∀ p ∈ recs, purgeEligible team_id? now p.2 = true →
      p ∉ (purge_expired recs team_id? none now).1) ∧
    (∀ p ∈ recs, ∀ t, p.2.purge_at = some t → now < t →
      p ∈ (purge_expired recs team_id? none now).1) ∧
    (∀ p ∈ recs, p.2.purge_at = none → p ∈ (purge_expired recs team_id? none now).1) ∧
    (∀ p ∈ (purge_expired recs team_id? none now).1, p ∈ recs) := by
  have h : purge_expired recs team_id? none now
      = (recs.filter (fun p => ! purgeEligible team_id? now p.2),
         .ok ((recs.filter (fun p => purgeEligible team_id? now p.2)).length)) := by
    simp [purge_expired, optTruthy]
  rw [h]
  refine ⟨rfl, ?_, ?_, ?_, ?_⟩
  · intro p hp helig hmem
    have := (List.mem_filter.mp hmem).2
    rw [helig] at this
    simp at this
  · intro p hp t hpt hlt
    refine List.mem_filter.mpr ⟨hp, ?_⟩
    have : purgeEligible team_id? now p.2 = false := by
      simp [purgeEligible, hpt, Nat.ble_eq, Nat.not_le.mpr hlt]
    simp [this]
  · intro p hp hpn
    refine List.mem_filter.mpr ⟨hp, ?_⟩
    have : purgeEligible team_id? now p.2 = false := by
      simp [purgeEligible, hpn]
    simp [this]
  · intro p hp
    exact (List.mem_filter.mp hp).1

/-- Expired record for the purge witnesses (purge time already passed). -/
def purgedRec : RecordDoc :=
  { team_id := "74656d3174656d3174656d31", author_id := "617574686f7231617574686f",
    type := "log", content := "old", deleted_at := some 20, purge_at := some 50,
    created_at := 10, updated_at := 10 }

/-- Not-yet-expired record for the purge witnesses. -/
def pendingRec : RecordDoc :=
  { team_id := "74656d3174656d3174656d31", author_id := "617574686f7231617574686f",
    type := "log", content := "recent", deleted_at := some 90, purge_at := some 200,
    created_at := 10, updated_at := 10 }

/-- Never-deleted record for the purge witnesses (no trash fields). -/
def liveRec : RecordDoc :=
  { team_id := "74656d3174656d3174656d31", author_id := "617574686f7231617574686f",
    type := "log", content := "live", created_at := 10, updated_at := 10 }

/-- Collection for the purge witnesses: one expired, one pending, one
never-deleted record. -/
def purgeRecs : List (String × RecordDoc) :=
  [("726563347265633472656334", purgedRec),
   ("726563357265633572656335", pendingRec),
   ("726563367265633672656336", liveRec)]

/-- Witness for C6 at time 100: the expired record is removed, the pending
and never-deleted ones survive, and the returned count is 1. -/
theorem purge_expired_bulk_spec_witness :
    (purge_expired purgeRecs none none 100).2 = .ok 1 ∧
    ("726563347265633472656334", purgedRec) ∉ (purge_expired purgeRecs none none 100).1 ∧
    ("726563357265633572656335", pendingRec) ∈ (purge_expired purgeRecs none none 100).1 ∧
    ("726563367265633672656336", liveRec) ∈ (purge_expired purgeRecs none none 100).1 := by
  have h := purge_expired_bulk_spec purgeRecs none 100
  refine ⟨?_, ?_, ?_, ?_⟩
  · rw [h.1]
    decide
  · exact h.2.1 _ (by decide) (by decide)
  · exact h.2.2.1 _ (by decide) 200 rfl (by decide)
  · exact h.2.2.2.1 _ (by decide) rfl

/-- C7: a purge invocation with a (truthy, well-formed) record id
unconditionally hard-deletes that single record — the theorem imposes no
hypothesis on `purge_at` or `deleted_at`, and the team filter parameter is
ignored — returning a deleted count of 1 when the record exists and 0
otherwise, while every record stored under a different id is untouched. -/
theorem purge_expired_by_id_spec (recs : List (String × RecordDoc))
    (team_id? : Option String) (rid : String) (now : Nat)
    (hne : rid ≠ "") (hv : validOid rid = true)
    (hnd : (recs.map Prod.fst).Nodup) :
    ((findDoc recs rid).isSome = true →
      (purge_expired recs team_id? (some rid) now).2 = .ok 1 ∧
      findDoc (purge_expired recs team_id? (some rid) now).1 rid = none) ∧
    (findDoc recs rid = none →
      (purge_expired recs team_id? (some rid) now).2 = .ok 0 ∧
      (purge_expired recs team_id? (some rid) now).1 = recs) ∧
    (∀ p ∈ recs, p.1 ≠ rid → p ∈ (purge_expired recs team_id? (some rid) now).1) := by
  have h : purge_expired recs team_id? (some rid) now
      = ((deleteFirst recs rid).1, .ok (deleteFirst recs rid).2) := by
    simp [purge_expired, optTruthy, hne, oid, hv]
  rw [h]
  refine ⟨?_, ?_, ?_⟩
  · intro hs
    obtain ⟨v, hv'⟩ := Option.isSome_iff_exists.mp hs
    have hd := deleteFirst_of_findDoc_some hnd hv'
    exact ⟨by rw [hd.1], hd.2⟩
  · intro hn
    rw [deleteFirst_of_findDoc_none hn]
    exact ⟨rfl, rfl⟩
  · intro p hp hne'
    exact mem_deleteFirst_of_ne hp hne'

/-- Witness for C7 at time 100: deleting the never-soft-deleted record
(no `purge_at` at all) by id succeeds with count 1, and both other records
survive. -/
theorem purge_expired_by_id_spec_witness :
    (purge_expired purgeRecs none (some "726563367265633672656336") 100).2 = .ok 1 ∧
    findDoc (purge_expired purgeRecs none (some "726563367265633672656336") 100).1
      "726563367265633672656336" = none ∧
    ("726563347265633472656334", purgedRec)
      ∈ (purge_expired purgeRecs none (some "726563367265633672656336") 100).1 ∧
    ("726563357265633572656335", pendingRec)
      ∈ (purge_expired purgeRecs none (some "726563367265633672656336") 100).1 := by
  have h := purge_expired_by_id_spec purgeRecs none "726563367265633672656336" 100
    (by decide) (by decide) (by decide)
  have hex := h.1 (by decide)
  exact ⟨hex.1, hex.2, h.2.2 _ (by decide) (by decide), h.2.2 _ (by decide) (by decide)⟩

/-- C8: invite and join are idempotent on an existing team and user (whose
stored invite/member lists satisfy the set invariant of at most one
occurrence): inviting the same email twice succeeds both times and leaves
exactly one occurrence of the email in the invite set; joining the same
team twice succeeds both times, leaves exactly one occurrence of the user
id in the member set, sets the role to "adult" after the first join, and
the second join leaves that stored role unchanged. -/
theorem invite_join_idempotent (teams : List (String × TeamDoc))
    (users : List (String × UserDoc)) (tid uid email : String)
    (t : TeamDoc) (u : UserDoc)
    (hvt : validOid tid = true) (hvu : validOid uid = true)
    (ht : findDoc teams tid = some t) (hu : findDoc users uid = some u)
    (hci : t.invites.count email ≤ 1) (hcm : t.member_ids.count uid ≤ 1) :
    (invite teams tid email).2 = .ok () ∧
    (invite (invite teams tid email).1 tid email).2 = .ok () ∧
    (findDoc (invite (invite teams tid email).1 tid email).1 tid).map
      (fun t2 => t2.invites.count email) = some 1 ∧
    (join_team teams users tid uid).2.2 = .ok () ∧
    (join_team (join_team teams users tid uid).1 (join_team teams users tid uid).2.1
      tid uid).2.2 = .ok () ∧
    (findDoc (join_team (join_team teams users tid uid).1
        (join_team teams users tid uid).2.1 tid uid).1 tid).map
      (fun t2 => t2.member_ids.count uid) = some 1 ∧
    (findDoc (join_team teams users tid uid).2.1 uid).map
      (fun u1 => findDoc u1.roles tid) = some (some "adult") ∧
    (findDoc (join_team (join_team teams users tid uid).1
        (join_team teams users tid uid).2.1 tid uid).2.1 uid).map
      (fun u2 => findDoc u2.roles tid)
      = (findDoc (join_team teams users tid uid).2.1 uid).map
          (fun u1 => findDoc u1.roles tid) := by
  have hi1 := invite_eq email hvt ht
  have hft1 : findDoc (invite teams tid email).1 tid
      = some { t with invites := addToSet t.invites email } := by
    rw [hi1]
    simp [findDoc_updateDoc, ht]
  have hi2 := invite_eq email hvt hft1
  have hft2 : findDoc (invite (invite teams tid email).1 tid email).1 tid
      = some { t with invites := addToSet (addToSet t.invites email) email } := by
    rw [hi2]
    simp [findDoc_updateDoc, hft1]
  have hc1 : (addToSet t.invites email).count email = 1 := count_addToSet hci
  have hc2 : (addToSet (addToSet t.invites email) email).count email = 1 :=
    count_addToSet (Nat.le_of_eq hc1)
  have hj1 := join_team_eq hvt hvu ht hu
  have hjt1 : findDoc (join_team teams users tid uid).1 tid
      = some { t with member_ids := addToSet t.member_ids uid } := by
    rw [hj1]
    simp [findDoc_updateDoc, ht]
  have hju1 : findDoc (join_team teams users tid uid).2.1 uid
      = some { u with roles := setKey u.roles tid "adult" } := by
    rw [hj1]
    simp [findDoc_updateDoc, hu]
  have hj2 := join_team_eq hvt hvu hjt1 hju1
  have hjt2 : findDoc (join_team (join_team teams users tid uid).1
        (join_team teams users tid uid).2.1 tid uid).1 tid
      = some { t with member_ids := addToSet (addToSet t.member_ids uid) uid } := by
    rw [hj2]
    simp [findDoc_updateDoc, hjt1]
  have hju2 : findDoc (join_team (join_team teams users tid uid).1
        (join_team teams users tid uid).2.1 tid uid).2.1 uid
      = some { u with roles := setKey (setKey u.roles tid "adult") tid "adult" } := by
    rw [hj2]
    simp [findDoc_updateDoc, hju1]
  have hm1 : (addToSet t.member_ids uid).count uid = 1 := count_addToSet hcm
  have hm2 : (addToSet (addToSet t.member_ids uid) uid).count uid = 1 :=
    count_addToSet (Nat.le_of_eq hm1)
  refine ⟨by rw [hi1], by rw [hi2], ?_, by rw [hj1], by rw [hj2], ?_, ?_, ?_⟩
  · rw [hft2]
    simpa using hc2
  · rw [hjt2]
    simpa using hm2
  · rw [hju1]
    simp [findDoc_setKey_self]
  · rw [hju2, hju1]
    simp [findDoc_setKey_self]

/-- Team for the C8/C10 witnesses: empty members and invites, led by the
witness user. -/
def wTeam : TeamDoc :=
  { name := "fam", leader_id := "cdcdcdcdcdcdcdcdcdcdcdcd", created_at := 1 }

/-- Team collection for the C8/C10 witnesses. -/
def wTeams : List (String × TeamDoc) := [("abababababababababababab", wTeam)]

/-- User for the C8/C10 witnesses: already holds the "leader" role for the
witness team. -/
def wUser : UserDoc :=
  { email := "l@x.com", name := "L", password_hash := "hash:leaderpw",
    roles := [("abababababababababababab", "leader")], created_at := 1 }

/-- User collection for the C8/C10 witnesses. -/
def wUsers : List (String × UserDoc) := [("cdcdcdcdcdcdcdcdcdcdcdcd", wUser)]

/-- Witness for C8: double invite leaves one copy of the email, double join
leaves one copy of the member id and an unchanged role. -/
theorem invite_join_idempotent_witness :
    (findDoc (invite (invite wTeams "abababababababababababab" "kid@x.com").1
        "abababababababababababab" "kid@x.com").1 "abababababababababababab").map
      (fun t2 => t2.invites.count "kid@x.com") = some 1 ∧
    (findDoc (join_team (join_team wTeams wUsers "abababababababababababab"
          "cdcdcdcdcdcdcdcdcdcdcdcd").1
        (join_team wTeams wUsers "abababababababababababab"
          "cdcdcdcdcdcdcdcdcdcdcdcd").2.1
        "abababababababababababab" "cdcdcdcdcdcdcdcdcdcdcdcd").1
      "abababababababababababab").map
      (fun t2 => t2.member_ids.count "cdcdcdcdcdcdcdcdcdcdcdcd") = some 1 ∧
    (findDoc (join_team (join_team wTeams wUsers "abababababababababababab"
          "cdcdcdcdcdcdcdcdcdcdcdcd").1
        (join_team wTeams wUsers "abababababababababababab"
          "cdcdcdcdcdcdcdcdcdcdcdcd").2.1
        "abababababababababababab" "cdcdcdcdcdcdcdcdcdcdcdcd").2.1
      "cdcdcdcdcdcdcdcdcdcdcdcd").map
      (fun u2 => findDoc u2.roles "abababababababababababab")
      = (findDoc (join_team wTeams wUsers "abababababababababababab"
          "cdcdcdcdcdcdcdcdcdcdcdcd").2.1 "cdcdcdcdcdcdcdcdcdcdcdcd").map
        (fun u1 => findDoc u1.roles "abababababababababababab") := by
  have h := invite_join_idempotent wTeams wUsers "abababababababababababab"
    "cdcdcdcdcdcdcdcdcdcdcdcd" "kid@x.com" wTeam wUser
    (by decide) (by decide) (by decide) (by decide) (by decide) (by decide)
  exact ⟨h.2.2.1, h.2.2.2.2.2.1, h.2.2.2.2.2.2.2⟩

/-- C10: joining a team unconditionally overwrites the joining user's
stored role for that team with "adult", whatever role (including "leader")
the user held for it before. -/
theorem join_team_overwrites_role_with_adult (teams : List (String × TeamDoc))
    (users : List (String × UserDoc)) (tid uid : String)
    (t : TeamDoc) (u : UserDoc) (r : String)
    (hvt : validOid tid = true) (hvu : validOid uid = true)
    (ht : findDoc teams tid = some t) (hu : findDoc users uid = some u)
    (hrole : findDoc u.roles tid = some r) :
    (join_team teams users tid uid).2.2 = .ok () ∧
    (findDoc (join_team teams users tid uid).2.1 uid).map
      (fun v => findDoc v.roles tid) = some (some "adult") := by
  have hj := join_team_eq hvt hvu ht hu
  refine ⟨by rw [hj], ?_⟩
  rw [hj]
  simp [findDoc_updateDoc, hu, findDoc_setKey_self]

/-- Witness for C10: the team's own leader joins their team and their
stored role for it is overwritten from "leader" to "adult". -/
theorem join_team_overwrites_role_with_adult_witness :
    (findDoc (join_team wTeams wUsers "abababababababababababab"
        "cdcdcdcdcdcdcdcdcdcdcdcd").2.1 "cdcdcdcdcdcdcdcdcdcdcdcd").map
      (fun v => findDoc v.roles "abababababababababababab") = some (some "adult") :=
  (join_team_overwrites_role_with_adult wTeams wUsers "abababababababababababab"
    "cdcdcdcdcdcdcdcdcdcdcdcd" wTeam wUser "leader"
    (by decide) (by decide) (by decide) (by decide) (by decide)).2
